import Mathlib

/-!
# Transaction retrieval of `ton/transactions.go`

A shallow embedding of the two entry points of `src/ton/transactions.go`,
`APIClient.ListTransactions` and `APIClient.GetTransaction`, and the properties
of their response-decoding pipeline.

The file under study calls into packages that it only imports (`tl`, `tlb`,
`cell`, `address`, the lite client transport).  Those collaborators are taken
as the fields of an environment `Env`, so every statement about the two entry
points holds for whatever the collaborators compute: a decoder may return a
value, return an error, or panic.

Go values are embedded as follows.

* `[]byte` is `List (Fin 256)`.
* A Go `error` is a value of `Err`; `fmt.Errorf("ctx: %w", e)` is `Err.wrap "ctx" e`.
* A call returning `(value, error)` yields an `Outcome`: `ok v` for `(v, nil)`,
  `error e` for `(nil, e)`, and `panic` for a run-time panic (an index out of
  range in the code under study, or a panic of a decoder it calls, which the code
  does not recover from).
* Every entry point also returns the chronological list of collaborator calls it
  made (`Call`), so that "does not call any decoder" is a statement about a value.
-/

namespace Ton

/-- Go `[]byte`. -/
abbrev Bytes := List (Fin 256)

/-- Server error payload `LSError` (code: int32, text: string). -/
structure LSError where
  Code : Int
  Text : String
  deriving DecidableEq, Repr

/-- Go `error` values that the code under study creates or passes on. -/
inductive Err where
  /-- Error `errors.New(s)`, also used for the opaque errors of collaborators. -/
  | text (s : String)
  /-- Error `fmt.Errorf(ctx + ": %w", cause)`. -/
  | wrap (ctx : String) (cause : Err)
  /-- An `LSError` value returned as an error. -/
  | ls (e : LSError)
  /-- The sentinel `ErrMessageNotAccepted`. -/
  | messageNotAccepted
  deriving DecidableEq, Repr

/-- Result of a Go call with signature `(T, error)`, with run-time panics made explicit. -/
inductive Outcome (α : Type) where
  /-- Statement `return v, nil`. -/
  | ok (v : α)
  /-- Statement `return nil, e`. -/
  | error (e : Err)
  /-- Run-time panic (index or slice bound out of range). -/
  | panic
  deriving DecidableEq, Repr

/-- Modelled from the spec: the record type `tlb.Transaction`, whose declaration is
not in `transactions.go`.  The spec lists a logical time, a `hash` field set by this
code, and further fields that are opaque here; `Hash = none` is the unset (nil) field. -/
structure Transaction (Rest : Type) where
  LT : Nat
  Rest : Rest
  Hash : Option Bytes
  deriving DecidableEq, Repr

/-- The two accessors of `address.Address` used by the code: `Workchain()` and `Data()`. -/
structure Address where
  Workchain : Int
  Data : Bytes
  deriving DecidableEq, Repr

/-- Request field `AccountID{WorkChain, ID}`. -/
structure AccountID where
  WorkChain : Int
  ID : Bytes
  deriving DecidableEq, Repr

/-- Request `GetOneTransaction` (lines 20-24). -/
structure GetOneTransaction (Block : Type) where
  ID : Block
  AccID : AccountID
  LT : Int
  deriving DecidableEq, Repr

/-- Request `GetTransactions` (lines 26-31). -/
structure GetTransactions where
  Limit : Int
  AccID : AccountID
  LT : Int
  TxHash : Bytes
  deriving DecidableEq, Repr

/-- The typed request handed to `DoRequest`. -/
inductive Request (Block : Type) where
  | getOne (r : GetOneTransaction Block)
  | getList (r : GetTransactions)
  deriving DecidableEq, Repr

/-- The transport's response: `resp.TypeID` and `resp.Data`. -/
structure Response where
  TypeID : Int
  Data : Bytes
  deriving DecidableEq, Repr

/-- Calls made to the transport and to the decoders, in the order they happen. -/
inductive Call (Block Slice : Type) where
  /-- Call `c.client.DoRequest(ctx, req)`. -/
  | doRequest (req : Request Block)
  /-- Call `binary.LittleEndian.Uint32(buf)`. -/
  | readCount (buf : Bytes)
  /-- Call `block.Load(buf)`. -/
  | blockLoad (buf : Bytes)
  /-- Call `tl.FromBytes(buf)`. -/
  | fromBytes (buf : Bytes)
  /-- Call `cell.FromBOCMultiRoot(data)`. -/
  | fromBOCMultiRoot (data : Bytes)
  /-- Call `cell.FromBOC(data)`. -/
  | fromBOC (data : Bytes)
  /-- Call `tlb.LoadFromCell(&tx, loader)`. -/
  | loadFromCell (loader : Slice)
  /-- Call `lsErr.Load(buf)`. -/
  | lsErrorLoad (buf : Bytes)
  deriving DecidableEq, Repr

/-- Everything `transactions.go` uses and does not define: the wire tags, the
transport and the decoders.  A decoder call ends with a value, an error or a panic; the
code has no `recover`, so a panic of a decoder ends the call that made it.  `Ctx` is `context.Context`, `Block` is `*tlb.BlockInfo`
as a request field, `Cell` is `*cell.Cell`, `Slice` is the parse cursor returned by
`BeginParse`, `Rest` the loader-populated fields of a transaction. -/
structure Env (Ctx Block Cell Slice Rest : Type) where
  /-- Constant `_TransactionsList`. -/
  TransactionsList : Int
  /-- Constant `_TransactionInfo`. -/
  TransactionInfo : Int
  /-- Constant `_LSError`. -/
  LSErrorTag : Int
  /-- Transport exchange `c.client.DoRequest`: a response or an error. -/
  DoRequest : Ctx → Request Block → Except Err Response
  /-- Method `(*tlb.BlockInfo).Load`: the remaining buffer, an error, or a panic. -/
  BlockLoad : Bytes → Outcome Bytes
  /-- Function `tl.FromBytes`: the blob and the remaining buffer, an error, or a panic. -/
  FromBytes : Bytes → Outcome (Bytes × Bytes)
  /-- Function `cell.FromBOCMultiRoot`. -/
  FromBOCMultiRoot : Bytes → Outcome (List Cell)
  /-- Function `cell.FromBOC`. -/
  FromBOC : Bytes → Outcome Cell
  /-- Method `(*cell.Cell).BeginParse`. -/
  BeginParse : Cell → Slice
  /-- Function `tlb.LoadFromCell` applied to a zero-valued transaction. -/
  LoadFromCell : Slice → Outcome (Transaction Rest)
  /-- Method `(*cell.Cell).Hash`. -/
  Hash : Cell → Bytes
  /-- Method `(*LSError).Load`: the decoded error and the remaining buffer. -/
  LSErrorLoad : Bytes → Outcome (LSError × Bytes)

/-- Conversion `int32(x)` of an unsigned value: reinterpretation of the low 32 bits. -/
def toInt32 (x : Nat) : Int :=
  if x % 2 ^ 32 < 2 ^ 31 then (x % 2 ^ 32 : Nat) else ((x % 2 ^ 32 : Nat) : Int) - 2 ^ 32

/-- Conversion `int64(x)` of an unsigned value: reinterpretation of the low 64 bits. -/
def toInt64 (x : Nat) : Int :=
  if x % 2 ^ 64 < 2 ^ 63 then (x % 2 ^ 64 : Nat) else ((x % 2 ^ 64 : Nat) : Int) - 2 ^ 64

/-- Go `binary.LittleEndian.Uint32(b)`: the first four bytes, least significant first;
`none` is the panic on a buffer shorter than four bytes. -/
def Uint32 : Bytes → Option Nat
  | b0 :: b1 :: b2 :: b3 :: _ =>
    some (b0.val + 256 * b1.val + 65536 * b2.val + 16777216 * b3.val)
  | _ => none

/-- Go slice expression `b[n:]`; `none` is the panic when `n > len(b)`. -/
def sliceFrom (n : Nat) (b : Bytes) : Option Bytes :=
  if n ≤ b.length then some (b.drop n) else none

section Code

variable {Ctx Block Cell Slice Rest : Type}

/-- Trace and outcome of a piece of the code. -/
abbrev Run (Block Slice α : Type) := List (Call Block Slice) × Outcome α

/-- The calls `t` happened, then the code went on as `r`. -/
def after {α : Type} (t : List (Call Block Slice)) (r : Run Block Slice α) : Run Block Slice α :=
  (t ++ r.1, r.2)

/-- Lines 57-64 of `ListTransactions`: the loop `for i := 0; i < int(vecLn); i++` that
reads a block header off the front of `resp.Data`.  The argument counts the remaining
iterations `int(vecLn) - i` (with a 64-bit `int`, `int(vecLn)` is the count itself); the
result is the buffer after the loop. -/
def loadBlocks (env : Env Ctx Block Cell Slice Rest) : Nat → Bytes → Run Block Slice Bytes
  | 0, data => ([], .ok data)
  | n + 1, data =>
    match env.BlockLoad data with
    | .panic => ([.blockLoad data], .panic)
    | .error err => ([.blockLoad data], .error (.wrap "failed to load block from vector" err))
    | .ok data1 =>
      after [.blockLoad data] (loadBlocks env n data1)

/-- Lines 78-89 of `ListTransactions`: the loop over `txList` that loads each root,
sets `tx.Hash = txCell.Hash()` and appends to `res`. -/
def loadTransactions (env : Env Ctx Block Cell Slice Rest) :
    List Cell → List (Transaction Rest) → Run Block Slice (List (Transaction Rest))
  | [], res => ([], .ok res)
  | txCell :: txList, res =>
    match env.LoadFromCell (env.BeginParse txCell) with
    | .panic => ([.loadFromCell (env.BeginParse txCell)], .panic)
    | .error err =>
      ([.loadFromCell (env.BeginParse txCell)],
        .error (.wrap "failed to load transaction from cell" err))
    | .ok tx =>
      after [.loadFromCell (env.BeginParse txCell)]
        (loadTransactions env txList (res ++ [{ tx with Hash := some (env.Hash txCell) }]))

/-- Lines 66-91 of `ListTransactions`: blob extraction, tree decoding and the
materialisation loop, on the buffer left by the header loop. -/
def listTail (env : Env Ctx Block Cell Slice Rest) (data : Bytes) :
    Run Block Slice (List (Transaction Rest)) :=
  match env.FromBytes data with
  | .panic => ([.fromBytes data], .panic)
  | .error err => ([.fromBytes data], .error (.wrap "failed to load transaction bytes" err))
  | .ok (txData, _) =>
    match env.FromBOCMultiRoot txData with
    | .panic => ([.fromBytes data, .fromBOCMultiRoot txData], .panic)
    | .error err =>
      ([.fromBytes data, .fromBOCMultiRoot txData],
        .error (.wrap "failed to parse cell from transaction bytes" err))
    | .ok txList =>
      after [.fromBytes data, .fromBOCMultiRoot txData] (loadTransactions env txList [])

/-- Lines 49-91 of `ListTransactions`: the `case _TransactionsList` branch. -/
def listSuccess (env : Env Ctx Block Cell Slice Rest) (data : Bytes) :
    Run Block Slice (List (Transaction Rest)) :=
  if data.length ≤ 4 then ([], .error (.text "too short response"))
  else
    match Uint32 data with
    | none => ([.readCount data], .panic)
    | some vecLn =>
      match sliceFrom 4 data with
      | none => ([.readCount data], .panic)
      | some data1 =>
        match loadBlocks env vecLn data1 with
        | (t, .ok data2) => after (.readCount data :: t) (listTail env data2)
        | (t, .error err) => (.readCount data :: t, .error err)
        | (t, .panic) => (.readCount data :: t, .panic)

/-- Lines 92-103 and 156-167: the `case _LSError` branch, the same in both entry points. -/
def lsErrorCase {α : Type} (env : Env Ctx Block Cell Slice Rest) (data : Bytes) :
    Run Block Slice α :=
  match env.LSErrorLoad data with
  | .panic => ([.lsErrorLoad data], .panic)
  | .error err => ([.lsErrorLoad data], .error err)
  | .ok (lsErr, _) =>
    if lsErr.Code = 0 then ([.lsErrorLoad data], .error .messageNotAccepted)
    else ([.lsErrorLoad data], .error (.ls lsErr))

/-- The request built at lines 35-43. -/
def listRequest (addr : Address) (limit lt : Nat) (txHash : Bytes) : Request Block :=
  .getList
    { Limit := toInt32 limit
      AccID := { WorkChain := addr.Workchain, ID := addr.Data }
      LT := toInt64 lt
      TxHash := txHash }

/-- Method `APIClient.ListTransactions` (lines 34-107).  `limit` is a `uint32` and `lt`
a `uint64`. -/
def ListTransactions (env : Env Ctx Block Cell Slice Rest) (ctx : Ctx) (addr : Address)
    (limit lt : Nat) (txHash : Bytes) : Run Block Slice (List (Transaction Rest)) :=
  match env.DoRequest ctx (listRequest addr limit lt txHash) with
  | .error err => ([.doRequest (listRequest addr limit lt txHash)], .error err)
  | .ok resp =>
    if resp.TypeID = env.TransactionsList then
      after [.doRequest (listRequest addr limit lt txHash)] (listSuccess env resp.Data)
    else if resp.TypeID = env.LSErrorTag then
      after [.doRequest (listRequest addr limit lt txHash)] (lsErrorCase env resp.Data)
    else
      ([.doRequest (listRequest addr limit lt txHash)], .error (.text "unknown response type"))

/-- Lines 124-155 of `GetTransaction`: the `case _TransactionInfo` branch. -/
def getSuccess (env : Env Ctx Block Cell Slice Rest) (data : Bytes) :
    Run Block Slice (Transaction Rest) :=
  match env.BlockLoad data with
  | .panic => ([.blockLoad data], .panic)
  | .error err => ([.blockLoad data], .error err)
  | .ok data1 =>
    match env.FromBytes data1 with
    | .panic => ([.blockLoad data, .fromBytes data1], .panic)
    | .error err =>
      ([.blockLoad data, .fromBytes data1], .error (.wrap "failed to load proof bytes" err))
    | .ok (_, data2) =>
      match env.FromBytes data2 with
      | .panic => ([.blockLoad data, .fromBytes data1, .fromBytes data2], .panic)
      | .error err =>
        ([.blockLoad data, .fromBytes data1, .fromBytes data2],
          .error (.wrap "failed to load transaction bytes" err))
      | .ok (txData, _) =>
        match env.FromBOC txData with
        | .panic =>
          ([.blockLoad data, .fromBytes data1, .fromBytes data2, .fromBOC txData], .panic)
        | .error err =>
          ([.blockLoad data, .fromBytes data1, .fromBytes data2, .fromBOC txData],
            .error (.wrap "failed to parrse cell from transaction bytes" err))
        | .ok txCell =>
          match env.LoadFromCell (env.BeginParse txCell) with
          | .panic =>
            ([.blockLoad data, .fromBytes data1, .fromBytes data2, .fromBOC txData,
                .loadFromCell (env.BeginParse txCell)],
              .panic)
          | .error err =>
            ([.blockLoad data, .fromBytes data1, .fromBytes data2, .fromBOC txData,
                .loadFromCell (env.BeginParse txCell)],
              .error (.wrap "failed to load transaction from cell" err))
          | .ok tx =>
            ([.blockLoad data, .fromBytes data1, .fromBytes data2, .fromBOC txData,
                .loadFromCell (env.BeginParse txCell)],
              .ok { tx with Hash := some (env.Hash txCell) })

/-- The request built at lines 110-117. -/
def getRequest (block : Block) (addr : Address) (lt : Nat) : Request Block :=
  .getOne
    { ID := block
      AccID := { WorkChain := addr.Workchain, ID := addr.Data }
      LT := toInt64 lt }

/-- Method `APIClient.GetTransaction` (lines 109-171).  `lt` is a `uint64`. -/
def GetTransaction (env : Env Ctx Block Cell Slice Rest) (ctx : Ctx) (block : Block)
    (addr : Address) (lt : Nat) : Run Block Slice (Transaction Rest) :=
  match env.DoRequest ctx (getRequest block addr lt) with
  | .error err => ([.doRequest (getRequest block addr lt)], .error err)
  | .ok resp =>
    if resp.TypeID = env.TransactionInfo then
      after [.doRequest (getRequest block addr lt)] (getSuccess env resp.Data)
    else if resp.TypeID = env.LSErrorTag then
      after [.doRequest (getRequest block addr lt)] (lsErrorCase env resp.Data)
    else
      ([.doRequest (getRequest block addr lt)], .error (.text "unknown response type"))

end Code

/-! ## Reference notions used to state the properties -/

section Notions

variable {Ctx Block Cell Slice Rest : Type}

/-- Relation `Headers env k b b2`: starting at cursor `b`, `k` block headers in a row are
well-formed (each `Load` succeeds on what the previous one left) and `b2` is the
buffer that follows them. -/
inductive Headers (env : Env Ctx Block Cell Slice Rest) : Nat → Bytes → Bytes → Prop where
  | done (b : Bytes) : Headers env 0 b b
  | step {k : Nat} {b b1 b2 : Bytes} :
      env.BlockLoad b = .ok b1 → Headers env k b1 b2 → Headers env (k + 1) b b2

/-- Relation `HeaderReads env cs b b2`: starting at cursor `b`, the header read succeeds
`cs.length` times in a row, `cs` lists the cursors it was applied to, in order, and `b2`
is the cursor after the last of these reads. -/
inductive HeaderReads (env : Env Ctx Block Cell Slice Rest) : List Bytes → Bytes → Bytes → Prop
    where
  | done (b : Bytes) : HeaderReads env [] b b
  | step {cs : List Bytes} {b b1 b2 : Bytes} :
      env.BlockLoad b = .ok b1 → HeaderReads env cs b1 b2 → HeaderReads env (b :: cs) b b2

/-- Whether a call is a block-header read. -/
def Call.isBlockLoad {Block Slice : Type} : Call Block Slice → Bool
  | .blockLoad _ => true
  | _ => false

/-- The record returned for root `root` when the loader produced `tx`: the loader's
fields, with `Hash` replaced by the root's content hash. -/
def withRootHash (env : Env Ctx Block Cell Slice Rest) (root : Cell) (tx : Transaction Rest) :
    Transaction Rest :=
  { tx with Hash := some (env.Hash root) }

/-- Predicate `LoadedFrom env root tx`: record `tx` is what the code returns for root `root`,
that is, the loader accepted `root` and `tx` is its output carrying the root's hash. -/
def LoadedFrom (env : Env Ctx Block Cell Slice Rest) (root : Cell) (tx : Transaction Rest) :
    Prop :=
  ∃ tx0, env.LoadFromCell (env.BeginParse root) = .ok tx0 ∧ tx = withRootHash env root tx0

end Notions

/-! ## A small concrete environment -/

/-- A one-byte error payload: the code, with a fixed text. -/
def demoLSErrorLoad : Bytes → Outcome (LSError × Bytes)
  | [] => .error (.text "short error payload")
  | b :: rest => .ok ({ Code := b.val, Text := "x" }, rest)

/-- A two-byte block header. -/
def demoBlockLoad (b : Bytes) : Outcome Bytes :=
  if b.length < 2 then .error (.text "not enough length") else .ok (b.drop 2)

/-- A blob with a one-byte length in front. -/
def demoFromBytes : Bytes → Outcome (Bytes × Bytes)
  | [] => .error (.text "too short data")
  | n :: rest =>
    if rest.length < n.val then .error (.text "too short data")
    else .ok (rest.take n.val, rest.drop n.val)

/-- A tree decoder for which every byte of the blob is one root; byte 255 is malformed. -/
def demoFromBOCMultiRoot (data : Bytes) : Outcome (List Nat) :=
  if (255 : Fin 256) ∈ data then .error (.text "bad boc") else .ok (data.map Fin.val)

/-- A single-root decoder that does not check the number of roots: it returns the first
root of the demo tree decoder, and indexing the first root panics when there is none. -/
def demoFromBOC (data : Bytes) : Outcome Nat :=
  match demoFromBOCMultiRoot data with
  | .panic => .panic
  | .error e => .error e
  | .ok [] => .panic
  | .ok (c :: _) => .ok c

/-- A loader that rejects root 0 and otherwise yields a record whose logical time is
the root's number and whose `Hash` is a value of its own. -/
def demoLoadFromCell (c : Nat) : Outcome (Transaction Unit) :=
  if c = 0 then .error (.text "bad cell") else .ok { LT := c, Rest := (), Hash := some [9] }

/-- A concrete environment: tags 1, 2, 3 and a transport that answers `answer`. -/
def demoEnv (answer : Except Err Response) : Env Unit Unit Nat Nat Unit where
  TransactionsList := 1
  TransactionInfo := 2
  LSErrorTag := 3
  DoRequest := fun _ _ => answer
  BlockLoad := demoBlockLoad
  FromBytes := demoFromBytes
  FromBOCMultiRoot := demoFromBOCMultiRoot
  FromBOC := demoFromBOC
  BeginParse := fun c => c
  LoadFromCell := demoLoadFromCell
  Hash := fun c => [Fin.ofNat c, 0]
  LSErrorLoad := demoLSErrorLoad

/-- A blob reader with 4-byte alignment: one length byte `n`, then `n` payload bytes, then
padding up to a multiple of four bytes.  It fails when the buffer is shorter than the
length byte or the declared length exceeds what is left; the padding is skipped, and
padding bytes that are missing at the end of the buffer are not required. -/
def demoPaddedFromBytes : Bytes → Outcome (Bytes × Bytes)
  | [] => .error (.text "too short data")
  | n :: rest =>
    if rest.length < n.val then .error (.text "too short data")
    else .ok (rest.take n.val, rest.drop (n.val + (3 - n.val % 4)))

/-- The concrete environment with the aligned blob reader. -/
def demoPaddedEnv (answer : Except Err Response) : Env Unit Unit Nat Nat Unit :=
  { demoEnv answer with FromBytes := demoPaddedFromBytes }

/-- A well-formed aligned list buffer: count 1, one header `7 7`, one blob of length 1
holding root 5 and two padding bytes, nothing after. -/
def demoPaddedList : Bytes := [1, 0, 0, 0, 7, 7, 1, 5, 0, 0]

/-- A well-formed aligned single-transaction buffer: header `7 7`, proof blob `8` with two
padding bytes, transaction blob `5` with two padding bytes, nothing after. -/
def demoPaddedGet : Bytes := [7, 7, 1, 8, 0, 0, 1, 5, 0, 0]

/-- A list response: count 1, one header `7 7`, a blob of length 2 holding roots 5 and 3. -/
def demoListResp : Response := { TypeID := 1, Data := [1, 0, 0, 0, 7, 7, 2, 5, 3] }

/-- A single-transaction response: header `7 7`, proof blob `8`, transaction blob `5`. -/
def demoGetResp : Response := { TypeID := 2, Data := [7, 7, 1, 8, 1, 5] }

/-- A concrete environment whose transport answers `r1` under context `true` and `r2`
under context `false`; the decoders are those of `demoEnv`. -/
def demoTwoEnv (r1 r2 : Response) : Env Bool Unit Nat Nat Unit where
  TransactionsList := 1
  TransactionInfo := 2
  LSErrorTag := 3
  DoRequest := fun c _ => if c then .ok r1 else .ok r2
  BlockLoad := demoBlockLoad
  FromBytes := demoFromBytes
  FromBOCMultiRoot := demoFromBOCMultiRoot
  FromBOC := demoFromBOC
  BeginParse := fun c => c
  LoadFromCell := demoLoadFromCell
  Hash := fun c => [Fin.ofNat c, 0]
  LSErrorLoad := demoLSErrorLoad

/-- The single-transaction response of `demoGetResp` with the proof blob `4 4` in place
of `8`. -/
def demoGetResp2 : Response := { TypeID := 2, Data := [7, 7, 2, 4, 4, 1, 5] }

/-- A list response that declares two headers and holds one byte after the count: the
header read at index 0 fails. -/
def demoBadHeader0 : Response := { TypeID := 1, Data := [2, 0, 0, 0, 7] }

/-- A list response that declares two headers and holds three bytes after the count: the
header read at index 0 succeeds and the one at index 1 fails. -/
def demoBadHeader1 : Response := { TypeID := 1, Data := [2, 0, 0, 0, 7, 7, 7] }

/-- A list response: count 1, one header `7 7`, a blob of length 3 holding the roots 5, 0
and 3; the demo loader rejects root 0, at index 1. -/
def demoRejectedResp : Response := { TypeID := 1, Data := [1, 0, 0, 0, 7, 7, 3, 5, 0, 3] }

/-- An account address used in the examples. -/
def demoAddr : Address := { Workchain := 0, Data := [1, 2] }

/-! ## Lemmas about the pieces of the code -/

section Lemmas

variable {Ctx Block Cell Slice Rest : Type}

@[simp]
theorem after_fst {α : Type} (t : List (Call Block Slice)) (r : Run Block Slice α) :
    (after t r).1 = t ++ r.1 := rfl

@[simp]
theorem after_snd {α : Type} (t : List (Call Block Slice)) (r : Run Block Slice α) :
    (after t r).2 = r.2 := rfl

/-- The header loop over `k` well-formed headers ends normally on the buffer after them. -/
theorem loadBlocks_of_headers (env : Env Ctx Block Cell Slice Rest) {k : Nat} {b b2 : Bytes}
    (h : Headers env k b b2) : (loadBlocks env k b).2 = .ok b2 := by
  induction h with
  | done b => rfl
  | step hb _ ih => simp [loadBlocks, hb, ih]

/-- The materialisation loop over roots that the loader accepts. -/
theorem loadTransactions_of_forall₂ (env : Env Ctx Block Cell Slice Rest)
    {roots : List Cell} {loaded : List (Transaction Rest)}
    (h : List.Forall₂ (fun r tx => env.LoadFromCell (env.BeginParse r) = .ok tx) roots loaded)
    (res : List (Transaction Rest)) :
    (loadTransactions env roots res).2
      = (.ok (res ++ List.zipWith (withRootHash env) roots loaded) :
          Outcome (List (Transaction Rest))) := by
  induction h generalizing res with
  | nil => simp [loadTransactions]
  | cons hr _ ih => simp [loadTransactions, hr, ih, withRootHash]

/-- Whatever the materialisation loop returns was appended record by record, each one
loaded from the root at the same position. -/
theorem loadTransactions_ok_inv (env : Env Ctx Block Cell Slice Rest) (roots : List Cell)
    (res out : List (Transaction Rest))
    (h : (loadTransactions env roots res : Run Block Slice _).2 = .ok out) :
    ∃ fresh, out = res ++ fresh ∧ List.Forall₂ (LoadedFrom env) roots fresh := by
  induction roots generalizing res with
  | nil =>
    refine ⟨[], ?_, List.Forall₂.nil⟩
    simp only [loadTransactions, Outcome.ok.injEq] at h
    simp [h]
  | cons r rs ih =>
    cases hl : env.LoadFromCell (env.BeginParse r) with
    | panic => simp [loadTransactions, hl] at h
    | error e => simp [loadTransactions, hl] at h
    | ok tx0 =>
      simp only [loadTransactions, hl, after_snd] at h
      obtain ⟨fresh, hout, hall⟩ := ih _ h
      refine ⟨withRootHash env r tx0 :: fresh, ?_, List.Forall₂.cons ⟨tx0, hl, rfl⟩ hall⟩
      simp [hout, withRootHash]

/-- The calls of the materialisation loop are loader calls only. -/
theorem loadTransactions_trace (env : Env Ctx Block Cell Slice Rest) (roots : List Cell)
    (res : List (Transaction Rest)) :
    ∀ c ∈ (loadTransactions env roots res : Run Block Slice _).1, ∃ s, c = Call.loadFromCell s := by
  induction roots generalizing res with
  | nil => simp [loadTransactions]
  | cons r rs ih =>
    cases hl : env.LoadFromCell (env.BeginParse r) with
    | panic => simp [loadTransactions, hl]
    | error e => simp [loadTransactions, hl]
    | ok tx0 =>
      intro c hc
      simp only [loadTransactions, hl, after_fst, List.singleton_append, List.mem_cons] at hc
      rcases hc with hc | hc
      · exact ⟨_, hc⟩
      · exact ih _ c hc

/-- The header loop ends normally, fails, or stops at a header read that panics. -/
theorem loadBlocks_cases (env : Env Ctx Block Cell Slice Rest) (k : Nat) (b : Bytes) :
    (∃ t b2, loadBlocks env k b = (t, .ok b2)) ∨
      (∃ t e, loadBlocks env k b = (t, .error e)) ∨
      (∃ t b2, loadBlocks env k b = (t ++ [.blockLoad b2], .panic) ∧
        env.BlockLoad b2 = .panic) := by
  induction k generalizing b with
  | zero => exact Or.inl ⟨_, _, rfl⟩
  | succ n ih =>
    cases hb : env.BlockLoad b with
    | panic =>
      exact Or.inr (Or.inr ⟨[], b, by simp [loadBlocks, hb], hb⟩)
    | error e =>
      exact Or.inr (Or.inl ⟨[.blockLoad b], .wrap "failed to load block from vector" e,
        by simp [loadBlocks, hb]⟩)
    | ok b1 =>
      rcases ih b1 with ⟨t, b2, h⟩ | ⟨t, e, h⟩ | ⟨t, b2, h, hp⟩
      · exact Or.inl ⟨.blockLoad b :: t, b2, by simp [loadBlocks, hb, h, after]⟩
      · exact Or.inr (Or.inl ⟨.blockLoad b :: t, e, by simp [loadBlocks, hb, h, after]⟩)
      · exact Or.inr (Or.inr ⟨.blockLoad b :: t, b2, by simp [loadBlocks, hb, h, after], hp⟩)

/-- A record that the code returns for a root carries that root's hash. -/
theorem LoadedFrom.hash_eq {env : Env Ctx Block Cell Slice Rest} {root : Cell}
    {tx : Transaction Rest} (h : LoadedFrom env root tx) : tx.Hash = some (env.Hash root) := by
  obtain ⟨tx0, _, rfl⟩ := h
  rfl

/-- Inversion of the blob-and-tree part of `ListTransactions`. -/
theorem listTail_ok_inv (env : Env Ctx Block Cell Slice Rest) (data : Bytes)
    (res : List (Transaction Rest)) (h : (listTail env data).2 = .ok res) :
    ∃ txData roots, Call.fromBOCMultiRoot txData ∈ (listTail env data).1 ∧
      env.FromBOCMultiRoot txData = .ok roots ∧ List.Forall₂ (LoadedFrom env) roots res := by
  unfold listTail at h ⊢
  cases hb : env.FromBytes data with
  | panic => simp [hb] at h
  | error e => simp [hb] at h
  | ok p =>
    obtain ⟨txData, rest⟩ := p
    cases hr : env.FromBOCMultiRoot txData with
    | panic => simp [hb, hr] at h
    | error e => simp [hb, hr] at h
    | ok roots =>
      simp only [hb, hr, after_snd] at h
      obtain ⟨fresh, hout, hall⟩ := loadTransactions_ok_inv env roots [] res h
      simp only [List.nil_append] at hout
      subst hout
      exact ⟨txData, roots, by simp [hr], hr, hall⟩

/-- Inversion of the success branch of `ListTransactions`. -/
theorem listSuccess_ok_inv (env : Env Ctx Block Cell Slice Rest) (data : Bytes)
    (res : List (Transaction Rest)) (h : (listSuccess env data).2 = .ok res) :
    ∃ txData roots, Call.fromBOCMultiRoot txData ∈ (listSuccess env data).1 ∧
      env.FromBOCMultiRoot txData = .ok roots ∧ List.Forall₂ (LoadedFrom env) roots res := by
  unfold listSuccess at h ⊢
  by_cases hlen : data.length ≤ 4
  · simp [hlen] at h
  · simp only [hlen, if_false] at h ⊢
    cases hk : Uint32 data with
    | none => simp [hk] at h
    | some k =>
      cases hs : sliceFrom 4 data with
      | none => simp [hk, hs] at h
      | some data1 =>
        simp only [hk, hs] at h ⊢
        rcases loadBlocks_cases env k data1 with ⟨t, b2, hl⟩ | ⟨t, e, hl⟩ | ⟨t, b2, hl, _⟩
        · simp only [hl, after_snd, after_fst] at h ⊢
          obtain ⟨txData, roots, hmem, hr, hall⟩ := listTail_ok_inv env b2 res h
          exact ⟨txData, roots, by simp [hmem], hr, hall⟩
        · simp [hl] at h
        · simp [hl] at h

/-- Inversion of the success branch of `GetTransaction`. -/
theorem getSuccess_ok_inv (env : Env Ctx Block Cell Slice Rest) (data : Bytes)
    (tx : Transaction Rest) (h : (getSuccess env data).2 = .ok tx) :
    ∃ data1 proof data2 txData rest root,
      env.BlockLoad data = .ok data1 ∧ env.FromBytes data1 = .ok (proof, data2) ∧
      env.FromBytes data2 = .ok (txData, rest) ∧ env.FromBOC txData = .ok root ∧
      Call.fromBOC txData ∈ (getSuccess env data).1 ∧ LoadedFrom env root tx := by
  unfold getSuccess at h ⊢
  cases h1 : env.BlockLoad data with
  | panic => simp [h1] at h
  | error e => simp [h1] at h
  | ok data1 =>
    cases h2 : env.FromBytes data1 with
    | panic => simp [h1, h2] at h
    | error e => simp [h1, h2] at h
    | ok p =>
      obtain ⟨proof, data2⟩ := p
      cases h3 : env.FromBytes data2 with
      | panic => simp [h1, h2, h3] at h
      | error e => simp [h1, h2, h3] at h
      | ok q =>
        obtain ⟨txData, rest⟩ := q
        cases h4 : env.FromBOC txData with
        | panic => simp [h1, h2, h3, h4] at h
        | error e => simp [h1, h2, h3, h4] at h
        | ok root =>
          cases h5 : env.LoadFromCell (env.BeginParse root) with
          | panic => simp [h1, h2, h3, h4, h5] at h
          | error e => simp [h1, h2, h3, h4, h5] at h
          | ok tx0 =>
            simp only [h1, h2, h3, h4, h5, Outcome.ok.injEq] at h
            refine ⟨data1, proof, data2, txData, rest, root, rfl, h2, h3, h4, ?_, tx0, h5, ?_⟩
            · simp [h2, h3, h4, h5]
            · rw [← h]; rfl

/-- The error branch never returns a value. -/
theorem lsErrorCase_ne_ok {α : Type} (env : Env Ctx Block Cell Slice Rest) (data : Bytes)
    (v : α) : (lsErrorCase env data : Run Block Slice α).2 ≠ .ok v := by
  unfold lsErrorCase
  cases hl : env.LSErrorLoad data with
  | panic => simp
  | error e => simp
  | ok p =>
    obtain ⟨lsErr, rest⟩ := p
    by_cases hc : lsErr.Code = 0 <;> simp [hc]

/-- A value returned by `ListTransactions` comes from its success branch. -/
theorem ListTransactions_ok_inv (env : Env Ctx Block Cell Slice Rest) (ctx : Ctx)
    (addr : Address) (limit lt : Nat) (txHash : Bytes) (res : List (Transaction Rest))
    (h : (ListTransactions env ctx addr limit lt txHash).2 = .ok res) :
    ∃ resp, env.DoRequest ctx (listRequest addr limit lt txHash) = .ok resp ∧
      resp.TypeID = env.TransactionsList ∧
      ListTransactions env ctx addr limit lt txHash
        = after [.doRequest (listRequest addr limit lt txHash)] (listSuccess env resp.Data) := by
  unfold ListTransactions at h ⊢
  cases hreq : env.DoRequest ctx (listRequest addr limit lt txHash) with
  | error e => simp [hreq] at h
  | ok resp =>
    simp only [hreq] at h ⊢
    by_cases htag : resp.TypeID = env.TransactionsList
    · exact ⟨resp, rfl, htag, by simp [htag]⟩
    · by_cases herr : resp.TypeID = env.LSErrorTag
      · rw [if_neg htag, if_pos herr, after_snd] at h
        exact absurd h (lsErrorCase_ne_ok env resp.Data res)
      · simp [htag, herr] at h

/-- A value returned by `GetTransaction` comes from its success branch. -/
theorem GetTransaction_ok_inv (env : Env Ctx Block Cell Slice Rest) (ctx : Ctx) (block : Block)
    (addr : Address) (lt : Nat) (tx : Transaction Rest)
    (h : (GetTransaction env ctx block addr lt).2 = .ok tx) :
    ∃ resp, env.DoRequest ctx (getRequest block addr lt) = .ok resp ∧
      resp.TypeID = env.TransactionInfo ∧
      GetTransaction env ctx block addr lt
        = after [.doRequest (getRequest block addr lt)] (getSuccess env resp.Data) := by
  unfold GetTransaction at h ⊢
  cases hreq : env.DoRequest ctx (getRequest block addr lt) with
  | error e => simp [hreq] at h
  | ok resp =>
    simp only [hreq] at h ⊢
    by_cases htag : resp.TypeID = env.TransactionInfo
    · exact ⟨resp, rfl, htag, by simp [htag]⟩
    · by_cases herr : resp.TypeID = env.LSErrorTag
      · rw [if_neg htag, if_pos herr, after_snd] at h
        exact absurd h (lsErrorCase_ne_ok env resp.Data tx)
      · simp [htag, herr] at h

/-- Every element on the right of a pointwise relation has a partner on the left. -/
theorem forall₂_right_mem {α β : Type} {R : α → β → Prop} {l₁ : List α} {l₂ : List β}
    (h : List.Forall₂ R l₁ l₂) : ∀ b ∈ l₂, ∃ a ∈ l₁, R a b := by
  induction h with
  | nil => simp
  | cons hab _ ih =>
    intro b hb
    rcases List.mem_cons.mp hb with rfl | hb
    · exact ⟨_, List.mem_cons_self _ _, hab⟩
    · obtain ⟨a, ha, hr⟩ := ih b hb
      exact ⟨a, List.mem_cons_of_mem _ ha, hr⟩

/-- The header loop over `cs.length` successful reads makes exactly these reads. -/
theorem loadBlocks_of_reads (env : Env Ctx Block Cell Slice Rest) {cs : List Bytes}
    {b b2 : Bytes} (h : HeaderReads env cs b b2) :
    loadBlocks env cs.length b = (cs.map Call.blockLoad, .ok b2) := by
  induction h with
  | done b => rfl
  | step hb _ ih => simp [loadBlocks, hb, ih, after]

/-- The header loop stops at the first read that fails. -/
theorem loadBlocks_first_failure (env : Env Ctx Block Cell Slice Rest) {cs : List Bytes}
    {b b2 : Bytes} (h : HeaderReads env cs b b2) {cause : Err}
    (hfail : env.BlockLoad b2 = .error cause) (m : Nat) :
    loadBlocks env (cs.length + (m + 1)) b
      = (cs.map Call.blockLoad ++ [.blockLoad b2],
          .error (.wrap "failed to load block from vector" cause)) := by
  induction h with
  | done b => simp [loadBlocks, hfail]
  | @step cs0 b0 b1 b3 hb _ ih =>
    have hlen : (b0 :: cs0).length + (m + 1) = (cs0.length + (m + 1)) + 1 := by
      simp only [List.length_cons]
      omega
    rw [hlen, loadBlocks]
    simp only [hb, ih hfail, after, List.map_cons, List.singleton_append, List.cons_append,
      List.nil_append]

/-- The blob-and-tree part of `ListTransactions` reads no block header. -/
theorem listTail_no_blockLoad (env : Env Ctx Block Cell Slice Rest) (data : Bytes) :
    (listTail env data).1.filter Call.isBlockLoad = [] := by
  rw [List.filter_eq_nil_iff]
  intro c hc
  unfold listTail at hc
  cases hb : env.FromBytes data with
  | panic =>
    simp only [hb, List.mem_singleton] at hc
    subst hc
    simp [Call.isBlockLoad]
  | error e =>
    simp only [hb, List.mem_singleton] at hc
    subst hc
    simp [Call.isBlockLoad]
  | ok p =>
    obtain ⟨txData, rest⟩ := p
    cases hr : env.FromBOCMultiRoot txData with
    | panic =>
      simp only [hb, hr, List.mem_cons, List.mem_singleton, List.not_mem_nil, or_false] at hc
      rcases hc with rfl | rfl <;> simp [Call.isBlockLoad]
    | error e =>
      simp only [hb, hr, List.mem_cons, List.mem_singleton, List.not_mem_nil, or_false] at hc
      rcases hc with rfl | rfl <;> simp [Call.isBlockLoad]
    | ok roots =>
      simp only [hb, hr, after_fst, List.mem_append, List.mem_cons, List.mem_singleton,
        List.not_mem_nil, or_false] at hc
      rcases hc with (rfl | rfl) | hc
      · simp [Call.isBlockLoad]
      · simp [Call.isBlockLoad]
      · obtain ⟨sl, rfl⟩ := loadTransactions_trace env roots [] c hc
        simp [Call.isBlockLoad]

/-- The transport request is the first call of `ListTransactions`, whatever follows. -/
theorem ListTransactions_trace_head (env : Env Ctx Block Cell Slice Rest) (ctx : Ctx)
    (addr : Address) (limit lt : Nat) (txHash : Bytes) :
    ∃ t, (ListTransactions env ctx addr limit lt txHash).1
      = .doRequest (listRequest addr limit lt txHash) :: t := by
  unfold ListTransactions
  cases hreq : env.DoRequest ctx (listRequest addr limit lt txHash) with
  | error e => exact ⟨[], rfl⟩
  | ok resp =>
    by_cases htag : resp.TypeID = env.TransactionsList
    · exact ⟨(listSuccess env resp.Data).1, by simp [htag]⟩
    · by_cases herr : resp.TypeID = env.LSErrorTag
      · refine ⟨(lsErrorCase env resp.Data : Run Block Slice (List (Transaction Rest))).1, ?_⟩
        simp only []
        rw [if_neg htag, if_pos herr, after_fst]
        rfl
      · exact ⟨[], by simp [htag, herr]⟩

/-- On a response that passes the wire layer and the tree decoder, what `ListTransactions`
returns is what the materialisation loop returns on the decoded roots. -/
theorem ListTransactions_snd_of_roots (env : Env Ctx Block Cell Slice Rest) (ctx : Ctx)
    (addr : Address) (limit lt : Nat) (txHash : Bytes) (resp : Response) (k : Nat)
    (data2 txData rest : Bytes) (roots : List Cell)
    (hreq : env.DoRequest ctx (listRequest addr limit lt txHash) = .ok resp)
    (htag : resp.TypeID = env.TransactionsList)
    (hlen : 4 < resp.Data.length)
    (hk : Uint32 resp.Data = some k)
    (hhdr : Headers env k (resp.Data.drop 4) data2)
    (hblob : env.FromBytes data2 = .ok (txData, rest))
    (hboc : env.FromBOCMultiRoot txData = .ok roots) :
    (ListTransactions env ctx addr limit lt txHash).2
      = (loadTransactions env roots [] : Run Block Slice _).2 := by
  have hb := loadBlocks_of_headers env hhdr
  obtain ⟨t, ht⟩ : ∃ t, loadBlocks env k (resp.Data.drop 4) = (t, .ok data2) :=
    ⟨_, Prod.ext rfl hb⟩
  have hs : sliceFrom 4 resp.Data = some (resp.Data.drop 4) := by
    simp [sliceFrom, Nat.le_of_lt hlen]
  simp [ListTransactions, hreq, htag, listSuccess, Nat.not_le.mpr hlen, hk, hs, ht,
    listTail, hblob, hboc]

/-- The materialisation loop stops at the first root that the loader rejects and returns
the wrapped loader error, whatever it has accumulated. -/
theorem loadTransactions_first_failure (env : Env Ctx Block Cell Slice Rest)
    {accepted : List Cell} {loaded : List (Transaction Rest)}
    (h : List.Forall₂ (fun r tx => env.LoadFromCell (env.BeginParse r) = .ok tx) accepted loaded)
    {r : Cell} {e : Err} (hfail : env.LoadFromCell (env.BeginParse r) = .error e)
    (later : List Cell) (res : List (Transaction Rest)) :
    (loadTransactions env (accepted ++ r :: later) res : Run Block Slice _).2
      = .error (.wrap "failed to load transaction from cell" e) := by
  induction h generalizing res with
  | nil => simp [loadTransactions, hfail]
  | cons hr _ ih => simp [loadTransactions, hr, ih]

end Lemmas

/-! ## The properties -/

section Properties

variable {Ctx Block Cell Slice Rest : Type}

/-- C1. `ListTransactions`, success tag: when the response data is longer than 4 bytes
and consists of a little-endian 32-bit count `k`, then `k` well-formed block headers,
then a well-formed length-prefixed blob that the tree decoder turns into `roots`, each
accepted by the loader (with outputs `loaded`), the call returns without error exactly
`roots.length` records, and the `i`-th record is the loader's output for the `i`-th
root (carrying that root's hash), in decode order; no roots give the empty sequence. -/
theorem C1_ListTransactions_success (env : Env Ctx Block Cell Slice Rest) (ctx : Ctx)
    (addr : Address) (limit lt : Nat) (txHash : Bytes) (resp : Response) (k : Nat)
    (data2 txData rest : Bytes) (roots : List Cell) (loaded : List (Transaction Rest))
    (hreq : env.DoRequest ctx (listRequest addr limit lt txHash) = .ok resp)
    (htag : resp.TypeID = env.TransactionsList)
    (hlen : 4 < resp.Data.length)
    (hk : Uint32 resp.Data = some k)
    (hhdr : Headers env k (resp.Data.drop 4) data2)
    (hblob : env.FromBytes data2 = .ok (txData, rest))
    (hboc : env.FromBOCMultiRoot txData = .ok roots)
    (hload : List.Forall₂ (fun r tx => env.LoadFromCell (env.BeginParse r) = .ok tx)
      roots loaded) :
    ∃ res, (ListTransactions env ctx addr limit lt txHash).2 = .ok res ∧
      res.length = roots.length ∧
      (roots = [] → res = []) ∧
      ∀ (i : Nat) (r : Cell) (tx0 : Transaction Rest),
        roots[i]? = some r → loaded[i]? = some tx0 →
        ∃ tx : Transaction Rest, res[i]? = some tx ∧ tx.LT = tx0.LT ∧ tx.Rest = tx0.Rest ∧
          tx.Hash = some (env.Hash r) := by
  have hlen2 : roots.length = loaded.length := hload.length_eq
  refine ⟨List.zipWith (withRootHash env) roots loaded, ?_, by simp [hlen2], ?_, ?_⟩
  · have hb := loadBlocks_of_headers env hhdr
    obtain ⟨t, ht⟩ : ∃ t, loadBlocks env k (resp.Data.drop 4) = (t, .ok data2) :=
      ⟨_, Prod.ext rfl hb⟩
    have hs : sliceFrom 4 resp.Data = some (resp.Data.drop 4) := by
      simp [sliceFrom, Nat.le_of_lt hlen]
    have htl := loadTransactions_of_forall₂ env hload []
    simp only [List.nil_append] at htl
    simp [ListTransactions, hreq, htag, listSuccess, Nat.not_le.mpr hlen, hk, hs, ht,
      listTail, hblob, hboc, htl]
  · rintro rfl
    simp
  · intro i r tx0 hr htx
    refine ⟨withRootHash env r tx0, ?_, rfl, rfl, rfl⟩
    simp [List.getElem?_zipWith, hr, htx]

/-- C1 at a concrete response: count 1, one header, a blob with roots 5 and 3. -/
theorem C1_ListTransactions_success_witness :
    ∃ res, (ListTransactions (demoEnv (.ok demoListResp)) () demoAddr 10 0 []).2 = .ok res ∧
      res.length = [5, 3].length ∧
      (([5, 3] : List Nat) = [] → res = []) ∧
      ∀ (i : Nat) (r : Nat) (tx0 : Transaction Unit),
        ([5, 3] : List Nat)[i]? = some r →
        ([{ LT := 5, Rest := (), Hash := some [9] }, { LT := 3, Rest := (), Hash := some [9] }] :
          List (Transaction Unit))[i]? = some tx0 →
        ∃ tx : Transaction Unit, res[i]? = some tx ∧ tx.LT = tx0.LT ∧ tx.Rest = tx0.Rest ∧
          tx.Hash = some ((demoEnv (.ok demoListResp)).Hash r) :=
  C1_ListTransactions_success (demoEnv (.ok demoListResp)) () demoAddr 10 0 [] demoListResp 1
    [2, 5, 3] [5, 3] [] [5, 3]
    [{ LT := 5, Rest := (), Hash := some [9] }, { LT := 3, Rest := (), Hash := some [9] }]
    rfl rfl (by decide) rfl (Headers.step rfl (Headers.done _)) rfl rfl
    (List.Forall₂.cons rfl (List.Forall₂.cons rfl List.Forall₂.nil))

/-- C2. Every record returned by `ListTransactions` or `GetTransaction` was loaded from a
root that the tree decoder produced in that call, and its `Hash` is that root's content
hash, whatever the loader left in `Hash`; no returned record has `Hash` unset. -/
theorem C2_hash_is_root_hash (env : Env Ctx Block Cell Slice Rest) (ctx : Ctx) (block : Block)
    (addr : Address) (limit lt : Nat) (txHash : Bytes) :
    (∀ res, (ListTransactions env ctx addr limit lt txHash).2 = .ok res →
      (∀ tx ∈ res, tx.Hash ≠ none) ∧
      ∃ txData roots,
        Call.fromBOCMultiRoot txData ∈ (ListTransactions env ctx addr limit lt txHash).1 ∧
        env.FromBOCMultiRoot txData = .ok roots ∧
        List.Forall₂ (fun root tx => LoadedFrom env root tx ∧ tx.Hash = some (env.Hash root))
          roots res) ∧
    (∀ tx, (GetTransaction env ctx block addr lt).2 = .ok tx →
      tx.Hash ≠ none ∧
      ∃ txData root,
        Call.fromBOC txData ∈ (GetTransaction env ctx block addr lt).1 ∧
        env.FromBOC txData = .ok root ∧
        LoadedFrom env root tx ∧ tx.Hash = some (env.Hash root)) := by
  constructor
  · intro res h
    obtain ⟨resp, _, _, heq⟩ := ListTransactions_ok_inv env ctx addr limit lt txHash res h
    rw [heq, after_snd] at h
    obtain ⟨txData, roots, hmem, hr, hall⟩ := listSuccess_ok_inv env resp.Data res h
    have hall2 : List.Forall₂
        (fun root tx => LoadedFrom env root tx ∧ tx.Hash = some (env.Hash root)) roots res :=
      hall.imp (fun _ _ hl => ⟨hl, hl.hash_eq⟩)
    refine ⟨?_, txData, roots, ?_, hr, hall2⟩
    · intro tx htx
      obtain ⟨root, _, hl⟩ := forall₂_right_mem hall tx htx
      simp [hl.hash_eq]
    · rw [heq, after_fst]
      exact List.mem_append_right _ hmem
  · intro tx h
    obtain ⟨resp, _, _, heq⟩ := GetTransaction_ok_inv env ctx block addr lt tx h
    rw [heq, after_snd] at h
    obtain ⟨_, _, _, txData, _, root, _, _, _, hboc, hmem, hl⟩ :=
      getSuccess_ok_inv env resp.Data tx h
    refine ⟨by simp [hl.hash_eq], txData, root, ?_, hboc, hl, hl.hash_eq⟩
    rw [heq, after_fst]
    exact List.mem_append_right _ hmem

/-- C2 at the two concrete responses: the loader leaves `Hash = [9]` and the returned
records carry the hashes of roots 5 and 3. -/
theorem C2_hash_is_root_hash_witness :
    ((∀ tx ∈ ([{ LT := 5, Rest := (), Hash := some [5, 0] },
          { LT := 3, Rest := (), Hash := some [3, 0] }] : List (Transaction Unit)),
        tx.Hash ≠ none) ∧
      ∃ txData roots,
        Call.fromBOCMultiRoot txData ∈
          (ListTransactions (demoEnv (.ok demoListResp)) () demoAddr 10 0 []).1 ∧
        (demoEnv (.ok demoListResp)).FromBOCMultiRoot txData = .ok roots ∧
        List.Forall₂
          (fun root tx => LoadedFrom (demoEnv (.ok demoListResp)) root tx ∧
            tx.Hash = some ((demoEnv (.ok demoListResp)).Hash root))
          roots
          [{ LT := 5, Rest := (), Hash := some [5, 0] },
            { LT := 3, Rest := (), Hash := some [3, 0] }]) ∧
    ((({ LT := 5, Rest := (), Hash := some [5, 0] } : Transaction Unit).Hash ≠ none) ∧
      ∃ txData root,
        Call.fromBOC txData ∈ (GetTransaction (demoEnv (.ok demoGetResp)) () () demoAddr 0).1 ∧
        (demoEnv (.ok demoGetResp)).FromBOC txData = .ok root ∧
        LoadedFrom (demoEnv (.ok demoGetResp)) root { LT := 5, Rest := (), Hash := some [5, 0] } ∧
        ({ LT := 5, Rest := (), Hash := some [5, 0] } : Transaction Unit).Hash
          = some ((demoEnv (.ok demoGetResp)).Hash root)) :=
  ⟨(C2_hash_is_root_hash (demoEnv (.ok demoListResp)) () () demoAddr 10 0 []).1 _ rfl,
    (C2_hash_is_root_hash (demoEnv (.ok demoGetResp)) () () demoAddr 10 0 []).2 _ rfl⟩

/-- C3. `GetTransaction`, success tag: when the response is one well-formed block header,
then a well-formed length-prefixed proof blob, then a well-formed length-prefixed
transaction blob that decodes to one root accepted by the loader, the call returns without
error exactly one record: the loader's output for the root decoded from the second blob,
with `Hash` equal to that root's content hash.  The tree decoder is called once, on the
second blob and not on the proof. -/
theorem C3_GetTransaction_success (env : Env Ctx Block Cell Slice Rest) (ctx : Ctx)
    (block : Block) (addr : Address) (lt : Nat) (resp : Response)
    (data1 proof data2 txData rest : Bytes) (root : Cell) (tx0 : Transaction Rest)
    (hreq : env.DoRequest ctx (getRequest block addr lt) = .ok resp)
    (htag : resp.TypeID = env.TransactionInfo)
    (hhdr : env.BlockLoad resp.Data = .ok data1)
    (hproof : env.FromBytes data1 = .ok (proof, data2))
    (hblob : env.FromBytes data2 = .ok (txData, rest))
    (hboc : env.FromBOC txData = .ok root)
    (hload : env.LoadFromCell (env.BeginParse root) = .ok tx0) :
    GetTransaction env ctx block addr lt
      = ([.doRequest (getRequest block addr lt), .blockLoad resp.Data, .fromBytes data1,
            .fromBytes data2, .fromBOC txData, .loadFromCell (env.BeginParse root)],
          .ok { LT := tx0.LT, Rest := tx0.Rest, Hash := some (env.Hash root) }) := by
  simp [GetTransaction, hreq, htag, getSuccess, hhdr, hproof, hblob, hboc, hload, after]

/-- C3 at a concrete response: header `7 7`, proof blob `8`, transaction blob `5`. -/
theorem C3_GetTransaction_success_witness :
    GetTransaction (demoEnv (.ok demoGetResp)) () () demoAddr 0
      = ([.doRequest (getRequest () demoAddr 0), .blockLoad [7, 7, 1, 8, 1, 5],
            .fromBytes [1, 8, 1, 5], .fromBytes [1, 5], .fromBOC [5], .loadFromCell 5],
          .ok { LT := 5, Rest := (), Hash := some [5, 0] }) :=
  C3_GetTransaction_success (demoEnv (.ok demoGetResp)) () () demoAddr 0 demoGetResp
    [1, 8, 1, 5] [8] [1, 5] [5] [] 5 { LT := 5, Rest := (), Hash := some [9] }
    rfl rfl rfl rfl rfl rfl rfl

/-- C4. For both entry points: on an error-tagged response whose payload decodes to
`lsErr = (code, message)`, the call returns no record; the error is the sentinel
`ErrMessageNotAccepted` when `code = 0` and otherwise exactly the decoded `LSError` value.
The error tag differs from the success tags, as the `switch` statements require. -/
theorem C4_error_response (env : Env Ctx Block Cell Slice Rest) (ctx : Ctx) (block : Block)
    (addr : Address) (limit lt : Nat) (txHash : Bytes) (resp : Response) (lsErr : LSError)
    (rest : Bytes)
    (hne1 : env.LSErrorTag ≠ env.TransactionsList) (hne2 : env.LSErrorTag ≠ env.TransactionInfo)
    (htag : resp.TypeID = env.LSErrorTag)
    (hdec : env.LSErrorLoad resp.Data = .ok (lsErr, rest)) :
    (env.DoRequest ctx (listRequest addr limit lt txHash) = .ok resp →
      (ListTransactions env ctx addr limit lt txHash).2
        = .error (if lsErr.Code = 0 then .messageNotAccepted else .ls lsErr)) ∧
    (env.DoRequest ctx (getRequest block addr lt) = .ok resp →
      (GetTransaction env ctx block addr lt).2
        = .error (if lsErr.Code = 0 then .messageNotAccepted else .ls lsErr)) := by
  constructor
  · intro hreq
    by_cases hc : lsErr.Code = 0 <;>
      simp [ListTransactions, hreq, htag, hne1, lsErrorCase, hdec, hc]
  · intro hreq
    by_cases hc : lsErr.Code = 0 <;>
      simp [GetTransaction, hreq, htag, hne2, lsErrorCase, hdec, hc]

/-- C4 at code 7, message "x": both calls return `LSError{7, "x"}`. -/
theorem C4_error_response_witness :
    (ListTransactions (demoEnv (.ok { TypeID := 3, Data := [7] })) () demoAddr 10 0 []).2
        = .error (.ls { Code := 7, Text := "x" }) ∧
    (GetTransaction (demoEnv (.ok { TypeID := 3, Data := [7] })) () () demoAddr 0).2
        = .error (.ls { Code := 7, Text := "x" }) :=
  have h := C4_error_response (demoEnv (.ok { TypeID := 3, Data := [7] })) () () demoAddr 10 0 []
    { TypeID := 3, Data := [7] } { Code := 7, Text := "x" } [] (by decide) (by decide) rfl rfl
  ⟨h.1 rfl, h.2 rfl⟩

/-- C5. A response whose type tag is neither the operation's success tag nor the error
tag makes the call return no record and the error "unknown response type", for every data
buffer and without any decoder call; this holds for `ListTransactions` (success tag
`_TransactionsList`) and for `GetTransaction` (success tag `_TransactionInfo`), so each
operation rejects the other operation's success tag. -/
theorem C5_unknown_response_type (env : Env Ctx Block Cell Slice Rest) (ctx : Ctx)
    (block : Block) (addr : Address) (limit lt : Nat) (txHash : Bytes) (resp : Response) :
    (env.DoRequest ctx (listRequest addr limit lt txHash) = .ok resp →
      resp.TypeID ≠ env.TransactionsList → resp.TypeID ≠ env.LSErrorTag →
      ListTransactions env ctx addr limit lt txHash
        = ([.doRequest (listRequest addr limit lt txHash)],
            .error (.text "unknown response type"))) ∧
    (env.DoRequest ctx (getRequest block addr lt) = .ok resp →
      resp.TypeID ≠ env.TransactionInfo → resp.TypeID ≠ env.LSErrorTag →
      GetTransaction env ctx block addr lt
        = ([.doRequest (getRequest block addr lt)], .error (.text "unknown response type"))) ∧
    (env.DoRequest ctx (listRequest addr limit lt txHash) = .ok resp →
      env.TransactionInfo ≠ env.TransactionsList → env.TransactionInfo ≠ env.LSErrorTag →
      resp.TypeID = env.TransactionInfo →
      (ListTransactions env ctx addr limit lt txHash).2
        = .error (.text "unknown response type")) ∧
    (env.DoRequest ctx (getRequest block addr lt) = .ok resp →
      env.TransactionsList ≠ env.TransactionInfo → env.TransactionsList ≠ env.LSErrorTag →
      resp.TypeID = env.TransactionsList →
      (GetTransaction env ctx block addr lt).2 = .error (.text "unknown response type")) := by
  refine ⟨?_, ?_, ?_, ?_⟩
  · intro hreq h1 h2
    simp [ListTransactions, hreq, h1, h2]
  · intro hreq h1 h2
    simp [GetTransaction, hreq, h1, h2]
  · intro hreq h1 h2 htag
    simp [ListTransactions, hreq, htag, h1, h2]
  · intro hreq h1 h2 htag
    simp [GetTransaction, hreq, htag, h1, h2]

/-- C5 at concrete responses: tag 9 is unknown to both calls, and each call rejects the
other call's success tag although the data is a well-formed answer for that tag. -/
theorem C5_unknown_response_type_witness :
    (ListTransactions (demoEnv (.ok { TypeID := 9, Data := [1, 2, 3, 4, 5] })) () demoAddr 10 0 []
        = ([.doRequest (listRequest demoAddr 10 0 [])], .error (.text "unknown response type"))) ∧
    (GetTransaction (demoEnv (.ok { TypeID := 9, Data := [1, 2, 3, 4, 5] })) () () demoAddr 0
        = ([.doRequest (getRequest () demoAddr 0)], .error (.text "unknown response type"))) ∧
    ((ListTransactions (demoEnv (.ok demoGetResp)) () demoAddr 10 0 []).2
        = .error (.text "unknown response type")) ∧
    ((GetTransaction (demoEnv (.ok demoListResp)) () () demoAddr 0).2
        = .error (.text "unknown response type")) :=
  ⟨(C5_unknown_response_type (demoEnv (.ok { TypeID := 9, Data := [1, 2, 3, 4, 5] })) () ()
      demoAddr 10 0 [] { TypeID := 9, Data := [1, 2, 3, 4, 5] }).1 rfl (by decide) (by decide),
    (C5_unknown_response_type (demoEnv (.ok { TypeID := 9, Data := [1, 2, 3, 4, 5] })) () ()
      demoAddr 10 0 [] { TypeID := 9, Data := [1, 2, 3, 4, 5] }).2.1 rfl (by decide) (by decide),
    (C5_unknown_response_type (demoEnv (.ok demoGetResp)) () () demoAddr 10 0 []
      demoGetResp).2.2.1 rfl (by decide) (by decide) rfl,
    (C5_unknown_response_type (demoEnv (.ok demoListResp)) () () demoAddr 0 0 []
      demoListResp).2.2.2 rfl (by decide) (by decide) rfl⟩

/-- C6. `ListTransactions`, success tag: on a data buffer of length at most 4 (a buffer of
exactly 4 bytes that holds a complete count included) the call returns the error
"too short response" and no result; the only call made is the transport request, so the
count is not read and no decoder is called. -/
theorem C6_too_short_response (env : Env Ctx Block Cell Slice Rest) (ctx : Ctx)
    (addr : Address) (limit lt : Nat) (txHash : Bytes) (resp : Response)
    (hreq : env.DoRequest ctx (listRequest addr limit lt txHash) = .ok resp)
    (htag : resp.TypeID = env.TransactionsList)
    (hlen : resp.Data.length ≤ 4) :
    ListTransactions env ctx addr limit lt txHash
      = ([.doRequest (listRequest addr limit lt txHash)], .error (.text "too short response")) := by
  simp [ListTransactions, hreq, htag, listSuccess, hlen, after]

/-- C6 at a buffer of exactly four bytes holding the count 0. -/
theorem C6_too_short_response_witness :
    ListTransactions (demoEnv (.ok { TypeID := 1, Data := [0, 0, 0, 0] })) () demoAddr 10 0 []
      = ([.doRequest (listRequest demoAddr 10 0 [])], .error (.text "too short response")) :=
  C6_too_short_response (demoEnv (.ok { TypeID := 1, Data := [0, 0, 0, 0] })) () demoAddr 10 0 []
    { TypeID := 1, Data := [0, 0, 0, 0] } rfl rfl (by decide)

/-- C8, evaluation at a failing input.  The response carries the roots with logical times
5 and 3 in this order; the call succeeds and returns them in decode order, so the first
record is not the oldest one. -/
theorem C8_decode_order_not_oldest_first :
    ∃ a b : Transaction Unit,
      (ListTransactions (demoEnv (.ok demoListResp)) () demoAddr 10 0 []).2 = .ok [a, b] ∧
      a.LT = 5 ∧ b.LT = 3 ∧ ¬ a.LT ≤ b.LT :=
  ⟨{ LT := 5, Rest := (), Hash := some [5, 0] }, { LT := 3, Rest := (), Hash := some [3, 0] },
    rfl, rfl, rfl, by decide⟩

/-- C9. For both entry points: when the transport's `DoRequest` returns an error `e`, the
call returns exactly `e`, unwrapped, with no result, and the transport request is the only
call made: no response data is decoded. -/
theorem C9_transport_error (env : Env Ctx Block Cell Slice Rest) (ctx : Ctx) (block : Block)
    (addr : Address) (limit lt : Nat) (txHash : Bytes) (e : Err) :
    (env.DoRequest ctx (listRequest addr limit lt txHash) = .error e →
      ListTransactions env ctx addr limit lt txHash
        = ([.doRequest (listRequest addr limit lt txHash)], .error e)) ∧
    (env.DoRequest ctx (getRequest block addr lt) = .error e →
      GetTransaction env ctx block addr lt
        = ([.doRequest (getRequest block addr lt)], .error e)) := by
  constructor
  · intro h
    simp [ListTransactions, h]
  · intro h
    simp [GetTransaction, h]

/-- C9 at a transport that reports a cancelled context. -/
theorem C9_transport_error_witness :
    ListTransactions (demoEnv (.error (.text "context canceled"))) () demoAddr 10 0 []
        = ([.doRequest (listRequest demoAddr 10 0 [])], .error (.text "context canceled")) ∧
    GetTransaction (demoEnv (.error (.text "context canceled"))) () () demoAddr 0
        = ([.doRequest (getRequest () demoAddr 0)], .error (.text "context canceled")) :=
  ⟨(C9_transport_error (demoEnv (.error (.text "context canceled"))) () () demoAddr 10 0 []
      (.text "context canceled")).1 rfl,
    (C9_transport_error (demoEnv (.error (.text "context canceled"))) () () demoAddr 0 0 []
      (.text "context canceled")).2 rfl⟩

/-- C10, as the code has it.  On a success buffer that lost its final byte the call returns
an error, and no result, whenever a wire read reports the loss: `ListTransactions` when at
most four bytes are left, when a header read fails or when the blob read fails;
`GetTransaction` when the header read, the proof read or the transaction-blob read fails.
The two functions make no length check of their own beyond the four-byte guard. -/
theorem C10_truncation_reported_by_reads (env : Env Ctx Block Cell Slice Rest) (ctx : Ctx)
    (block : Block) (addr : Address) (limit lt : Nat) (txHash : Bytes)
    (buf : Bytes) (resp : Response) (hdata : resp.Data = buf.dropLast) :
    (env.DoRequest ctx (listRequest addr limit lt txHash) = .ok resp →
      resp.TypeID = env.TransactionsList →
      (buf.dropLast.length ≤ 4 →
        (ListTransactions env ctx addr limit lt txHash).2
          = .error (.text "too short response")) ∧
      (∀ k cs b cause, 4 < buf.dropLast.length → Uint32 buf.dropLast = some k →
        HeaderReads env cs (buf.dropLast.drop 4) b → cs.length < k →
        env.BlockLoad b = .error cause →
        (ListTransactions env ctx addr limit lt txHash).2
          = .error (.wrap "failed to load block from vector" cause)) ∧
      (∀ k data2 cause, 4 < buf.dropLast.length → Uint32 buf.dropLast = some k →
        Headers env k (buf.dropLast.drop 4) data2 →
        env.FromBytes data2 = .error cause →
        (ListTransactions env ctx addr limit lt txHash).2
          = .error (.wrap "failed to load transaction bytes" cause))) ∧
    (env.DoRequest ctx (getRequest block addr lt) = .ok resp →
      resp.TypeID = env.TransactionInfo →
      (∀ cause, env.BlockLoad buf.dropLast = .error cause →
        (GetTransaction env ctx block addr lt).2 = .error cause) ∧
      (∀ data1 cause, env.BlockLoad buf.dropLast = .ok data1 →
        env.FromBytes data1 = .error cause →
        (GetTransaction env ctx block addr lt).2
          = .error (.wrap "failed to load proof bytes" cause)) ∧
      (∀ data1 proof data2 cause, env.BlockLoad buf.dropLast = .ok data1 →
        env.FromBytes data1 = .ok (proof, data2) →
        env.FromBytes data2 = .error cause →
        (GetTransaction env ctx block addr lt).2
          = .error (.wrap "failed to load transaction bytes" cause))) := by
  rw [← hdata]
  constructor
  · intro hreq htag
    have hrun : (ListTransactions env ctx addr limit lt txHash).2
        = (listSuccess env resp.Data).2 := by
      simp [ListTransactions, hreq, htag]
    refine ⟨?_, ?_, ?_⟩
    · intro hlen
      simp [hrun, listSuccess, hlen]
    · intro k cs b cause hlen hk hreads hlt hfail
      have hs : sliceFrom 4 resp.Data = some (resp.Data.drop 4) := by
        simp [sliceFrom, Nat.le_of_lt hlen]
      obtain ⟨m, rfl⟩ : ∃ m, k = cs.length + (m + 1) := ⟨k - cs.length - 1, by omega⟩
      simp [hrun, listSuccess, Nat.not_le.mpr hlen, hk, hs,
        loadBlocks_first_failure env hreads hfail m]
    · intro k data2 cause hlen hk hhdr hfail
      have hs : sliceFrom 4 resp.Data = some (resp.Data.drop 4) := by
        simp [sliceFrom, Nat.le_of_lt hlen]
      obtain ⟨t, ht⟩ : ∃ t, loadBlocks env k (resp.Data.drop 4) = (t, .ok data2) :=
        ⟨_, Prod.ext rfl (loadBlocks_of_headers env hhdr)⟩
      simp [hrun, listSuccess, Nat.not_le.mpr hlen, hk, hs, ht, listTail, hfail]
  · intro hreq htag
    have hrun : (GetTransaction env ctx block addr lt).2 = (getSuccess env resp.Data).2 := by
      simp [GetTransaction, hreq, htag]
    refine ⟨?_, ?_, ?_⟩
    · intro cause h1
      simp [hrun, getSuccess, h1]
    · intro data1 cause h1 h2
      simp [hrun, getSuccess, h1, h2]
    · intro data1 proof data2 cause h1 h2 h3
      simp [hrun, getSuccess, h1, h2, h3]

/-- C10 at concrete buffers without padding: the list buffer `1 0 0 0 | 7 7 | 2 5 3` and
the single-transaction buffer `7 7 | 1 8 | 1 5`, each without its final byte; the blob read
reports the missing payload byte and both calls fail. -/
theorem C10_truncation_reported_by_reads_witness :
    (ListTransactions (demoEnv (.ok { TypeID := 1, Data := [1, 0, 0, 0, 7, 7, 2, 5] }))
        () demoAddr 10 0 []).2
      = .error (.wrap "failed to load transaction bytes" (.text "too short data")) ∧
    (GetTransaction (demoEnv (.ok { TypeID := 2, Data := [7, 7, 1, 8, 1] })) () ()
        demoAddr 0).2
      = .error (.wrap "failed to load transaction bytes" (.text "too short data")) :=
  ⟨((C10_truncation_reported_by_reads
      (demoEnv (.ok { TypeID := 1, Data := [1, 0, 0, 0, 7, 7, 2, 5] })) () () demoAddr 10 0 []
      [1, 0, 0, 0, 7, 7, 2, 5, 3] { TypeID := 1, Data := [1, 0, 0, 0, 7, 7, 2, 5] } rfl).1
      rfl rfl).2.2 1 [2, 5] (.text "too short data") (by decide) rfl
      (Headers.step rfl (Headers.done _)) rfl,
    ((C10_truncation_reported_by_reads
      (demoEnv (.ok { TypeID := 2, Data := [7, 7, 1, 8, 1] })) () () demoAddr 0 0 []
      [7, 7, 1, 8, 1, 5] { TypeID := 2, Data := [7, 7, 1, 8, 1] } rfl).2
      rfl rfl).2.2 [1, 8, 1] [8] [1] (.text "too short data") rfl rfl rfl⟩

/-- C10 as stated fails.  With a blob reader that aligns blobs to four bytes (and fails on a
buffer shorter than the length byte or than the declared length), the list buffer
`1 0 0 0 | 7 7 | 1 5 0 0` and the single-transaction buffer `7 7 | 1 8 0 0 | 1 5 0 0` are
well-formed with nothing after the blob; without their final byte, a padding byte, both
calls still succeed and return the same record as on the whole buffer. -/
theorem C10_truncated_padding_decodes :
    demoPaddedFromBytes [] = .error (.text "too short data") ∧
    demoPaddedFromBytes [2, 5] = .error (.text "too short data") ∧
    demoPaddedFromBytes [1, 5, 0, 0] = .ok ([5], []) ∧
    demoPaddedFromBytes [1, 8, 0, 0, 1, 5, 0, 0] = .ok ([8], [1, 5, 0, 0]) ∧
    (ListTransactions (demoPaddedEnv (.ok { TypeID := 1, Data := demoPaddedList }))
        () demoAddr 10 0 []).2 = .ok [{ LT := 5, Rest := (), Hash := some [5, 0] }] ∧
    (ListTransactions (demoPaddedEnv (.ok { TypeID := 1, Data := demoPaddedList.dropLast }))
        () demoAddr 10 0 []).2 = .ok [{ LT := 5, Rest := (), Hash := some [5, 0] }] ∧
    (GetTransaction (demoPaddedEnv (.ok { TypeID := 2, Data := demoPaddedGet }))
        () () demoAddr 0).2 = .ok { LT := 5, Rest := (), Hash := some [5, 0] } ∧
    (GetTransaction (demoPaddedEnv (.ok { TypeID := 2, Data := demoPaddedGet.dropLast }))
        () () demoAddr 0).2 = .ok { LT := 5, Rest := (), Hash := some [5, 0] } :=
  ⟨rfl, rfl, rfl, rfl, rfl, rfl, rfl, rfl⟩

/-- C11. The result of `GetTransaction` does not depend on the proof blob: for two success
responses whose header and proof blob are well-formed and whose transaction blob is the
same `txData`, the two calls return the same outcome (the same record or the same error)
and make the same tree-decoder and loader calls; the proof is read only to advance the
cursor and is passed to no decoder. -/
theorem C11_proof_blob_ignored (env : Env Ctx Block Cell Slice Rest)
    (ctx1 ctx2 : Ctx) (block1 block2 : Block) (addr1 addr2 : Address) (lt1 lt2 : Nat)
    (resp1 resp2 : Response) (d1 d1' proof1 proof2 d2 d2' txData rest rest' : Bytes)
    (hreq1 : env.DoRequest ctx1 (getRequest block1 addr1 lt1) = .ok resp1)
    (hreq2 : env.DoRequest ctx2 (getRequest block2 addr2 lt2) = .ok resp2)
    (htag1 : resp1.TypeID = env.TransactionInfo)
    (htag2 : resp2.TypeID = env.TransactionInfo)
    (hhdr1 : env.BlockLoad resp1.Data = .ok d1)
    (hhdr2 : env.BlockLoad resp2.Data = .ok d1')
    (hproof1 : env.FromBytes d1 = .ok (proof1, d2))
    (hproof2 : env.FromBytes d1' = .ok (proof2, d2'))
    (hblob1 : env.FromBytes d2 = .ok (txData, rest))
    (hblob2 : env.FromBytes d2' = .ok (txData, rest')) :
    (GetTransaction env ctx1 block1 addr1 lt1).2 = (GetTransaction env ctx2 block2 addr2 lt2).2 ∧
    (GetTransaction env ctx1 block1 addr1 lt1).1.drop 4
      = (GetTransaction env ctx2 block2 addr2 lt2).1.drop 4 ∧
    (GetTransaction env ctx1 block1 addr1 lt1).1.take 4
      = [.doRequest (getRequest block1 addr1 lt1), .blockLoad resp1.Data, .fromBytes d1,
          .fromBytes d2] := by
  cases hboc : env.FromBOC txData with
  | panic =>
    simp [GetTransaction, hreq1, hreq2, htag1, htag2, getSuccess, hhdr1, hhdr2, hproof1,
      hproof2, hblob1, hblob2, hboc, after]
  | error e =>
    simp [GetTransaction, hreq1, hreq2, htag1, htag2, getSuccess, hhdr1, hhdr2, hproof1,
      hproof2, hblob1, hblob2, hboc, after]
  | ok root =>
    cases hl : env.LoadFromCell (env.BeginParse root) with
    | panic =>
      simp [GetTransaction, hreq1, hreq2, htag1, htag2, getSuccess, hhdr1, hhdr2, hproof1,
        hproof2, hblob1, hblob2, hboc, hl, after]
    | error e =>
      simp [GetTransaction, hreq1, hreq2, htag1, htag2, getSuccess, hhdr1, hhdr2, hproof1,
        hproof2, hblob1, hblob2, hboc, hl, after]
    | ok tx =>
      simp [GetTransaction, hreq1, hreq2, htag1, htag2, getSuccess, hhdr1, hhdr2, hproof1,
        hproof2, hblob1, hblob2, hboc, hl, after]

/-- C11 at two concrete responses with the header `7 7` and the transaction blob `5`, one
with the proof blob `8` and one with the proof blob `4 4`. -/
theorem C11_proof_blob_ignored_witness :
    (GetTransaction (demoTwoEnv demoGetResp demoGetResp2) true () demoAddr 0).2
      = (GetTransaction (demoTwoEnv demoGetResp demoGetResp2) false () demoAddr 0).2 ∧
    (GetTransaction (demoTwoEnv demoGetResp demoGetResp2) true () demoAddr 0).1.drop 4
      = (GetTransaction (demoTwoEnv demoGetResp demoGetResp2) false () demoAddr 0).1.drop 4 ∧
    (GetTransaction (demoTwoEnv demoGetResp demoGetResp2) true () demoAddr 0).1.take 4
      = [.doRequest (getRequest () demoAddr 0), .blockLoad [7, 7, 1, 8, 1, 5],
          .fromBytes [1, 8, 1, 5], .fromBytes [1, 5]] :=
  C11_proof_blob_ignored (demoTwoEnv demoGetResp demoGetResp2) true false () () demoAddr
    demoAddr 0 0 demoGetResp demoGetResp2 [1, 8, 1, 5] [2, 4, 4, 1, 5] [8] [4, 4] [1, 5] [1, 5]
    [5] [] [] rfl rfl rfl rfl rfl rfl rfl rfl rfl rfl

/-- C12, as the code has it.  `ListTransactions`, success tag with declared count `k`:
when the header read succeeds `k` times in a row, it is applied exactly `k` times, in
sequence, and the call goes on with the blob; when the reads at the cursors `cs` succeed
and the next one, at index `cs.length < k`, fails with `cause`, the call returns right
after it (no further header, blob or tree read) with an error that wraps `cause` under the
fixed text "failed to load block from vector". -/
theorem C12_header_loop (env : Env Ctx Block Cell Slice Rest) (ctx : Ctx) (addr : Address)
    (limit lt : Nat) (txHash : Bytes) (resp : Response) (k : Nat) (cs : List Bytes) (b : Bytes)
    (hreq : env.DoRequest ctx (listRequest addr limit lt txHash) = .ok resp)
    (htag : resp.TypeID = env.TransactionsList)
    (hlen : 4 < resp.Data.length)
    (hk : Uint32 resp.Data = some k)
    (hreads : HeaderReads env cs (resp.Data.drop 4) b) :
    (cs.length = k →
      ListTransactions env ctx addr limit lt txHash
        = after (.doRequest (listRequest addr limit lt txHash) :: .readCount resp.Data ::
            cs.map Call.blockLoad) (listTail env b) ∧
      (ListTransactions env ctx addr limit lt txHash).1.filter Call.isBlockLoad
        = cs.map Call.blockLoad) ∧
    (∀ cause, cs.length < k → env.BlockLoad b = .error cause →
      ListTransactions env ctx addr limit lt txHash
        = (.doRequest (listRequest addr limit lt txHash) :: .readCount resp.Data ::
            (cs.map Call.blockLoad ++ [.blockLoad b]),
          .error (.wrap "failed to load block from vector" cause))) := by
  have hs : sliceFrom 4 resp.Data = some (resp.Data.drop 4) := by
    simp [sliceFrom, Nat.le_of_lt hlen]
  constructor
  · intro hcs
    subst hcs
    have hrun : ListTransactions env ctx addr limit lt txHash
        = after (.doRequest (listRequest addr limit lt txHash) :: .readCount resp.Data ::
            cs.map Call.blockLoad) (listTail env b) := by
      simp [ListTransactions, hreq, htag, listSuccess, Nat.not_le.mpr hlen, hk, hs,
        loadBlocks_of_reads env hreads, after]
    refine ⟨hrun, ?_⟩
    rw [hrun, after_fst, List.filter_append, listTail_no_blockLoad, List.append_nil]
    simp only [List.filter_cons, Call.isBlockLoad]
    rw [List.filter_eq_self.mpr]
    · simp
    · intro c hc
      obtain ⟨x, _, rfl⟩ := List.mem_map.mp hc
      rfl
  · intro cause hlt hfail
    obtain ⟨m, rfl⟩ : ∃ m, k = cs.length + (m + 1) := ⟨k - cs.length - 1, by omega⟩
    simp [ListTransactions, hreq, htag, listSuccess, Nat.not_le.mpr hlen, hk, hs,
      loadBlocks_first_failure env hreads hfail m, after]

/-- C12 at concrete responses: with count 1 the single header `7 7` is read once and the
call goes on; with count 2 and three bytes after the count, the read at index 1 fails and
the call returns after it. -/
theorem C12_header_loop_witness :
    (ListTransactions (demoEnv (.ok demoListResp)) () demoAddr 10 0 []
        = after (.doRequest (listRequest demoAddr 10 0 []) ::
            .readCount [1, 0, 0, 0, 7, 7, 2, 5, 3] ::
            ([[7, 7, 2, 5, 3]] : List Bytes).map Call.blockLoad)
            (listTail (demoEnv (.ok demoListResp)) [2, 5, 3]) ∧
      (ListTransactions (demoEnv (.ok demoListResp)) () demoAddr 10 0 []).1.filter
          Call.isBlockLoad
        = ([[7, 7, 2, 5, 3]] : List Bytes).map Call.blockLoad) ∧
    ListTransactions (demoEnv (.ok demoBadHeader1)) () demoAddr 10 0 []
      = (.doRequest (listRequest demoAddr 10 0 []) :: .readCount [2, 0, 0, 0, 7, 7, 7] ::
          (([[7, 7, 7]] : List Bytes).map Call.blockLoad ++ [.blockLoad [7]]),
        .error (.wrap "failed to load block from vector" (.text "not enough length"))) :=
  ⟨(C12_header_loop (demoEnv (.ok demoListResp)) () demoAddr 10 0 [] demoListResp 1
      [[7, 7, 2, 5, 3]] [2, 5, 3] rfl rfl (by decide) rfl
      (HeaderReads.step rfl (HeaderReads.done _))).1 rfl,
    (C12_header_loop (demoEnv (.ok demoBadHeader1)) () demoAddr 10 0 [] demoBadHeader1 2
      [[7, 7, 7]] [7] rfl rfl (by decide) rfl
      (HeaderReads.step rfl (HeaderReads.done _))).2 _ (by decide) rfl⟩

/-- C12 as stated fails: the error carries no index.  With count 2, the header read fails
at index 0 on one response and at index 1 on the other, and both calls return the same
error value, so no reading of the error yields the index at which the read failed. -/
theorem C12_error_carries_no_index :
    ListTransactions (demoEnv (.ok demoBadHeader0)) () demoAddr 10 0 []
      = ([.doRequest (listRequest demoAddr 10 0 []), .readCount [2, 0, 0, 0, 7],
          .blockLoad [7]],
        .error (.wrap "failed to load block from vector" (.text "not enough length"))) ∧
    ListTransactions (demoEnv (.ok demoBadHeader1)) () demoAddr 10 0 []
      = ([.doRequest (listRequest demoAddr 10 0 []), .readCount [2, 0, 0, 0, 7, 7, 7],
          .blockLoad [7, 7, 7], .blockLoad [7]],
        .error (.wrap "failed to load block from vector" (.text "not enough length"))) ∧
    ¬ ∃ indexOf : Err → Nat,
      (∀ e, (ListTransactions (demoEnv (.ok demoBadHeader0)) () demoAddr 10 0 []).2 = .error e →
        indexOf e = 0) ∧
      (∀ e, (ListTransactions (demoEnv (.ok demoBadHeader1)) () demoAddr 10 0 []).2 = .error e →
        indexOf e = 1) := by
  refine ⟨rfl, rfl, ?_⟩
  rintro ⟨indexOf, h0, h1⟩
  have e0 := h0 _ rfl
  have e1 := h1 _ rfl
  rw [e0] at e1
  exact absurd e1 (by decide)

/-- C14. Request construction in `ListTransactions`: for every `limit` (a `uint32`) and `lt`
(a `uint64`) the first call is the transport request, whose `Limit` is `limit`
reinterpreted as a signed 32-bit integer (`limit` below `2^31`, `limit - 2^32`, a negative
count, from `2^31` on) and whose `LT` is `lt` reinterpreted as a signed 64-bit integer, with
the account workchain, account id and hash unchanged; no limit is rejected before the
request is sent. -/
theorem C14_request_fields (env : Env Ctx Block Cell Slice Rest) (ctx : Ctx) (addr : Address)
    (limit lt : Nat) (txHash : Bytes) (hlimit : limit < 2 ^ 32) (hlt : lt < 2 ^ 64) :
    ∃ (req : GetTransactions) (t : List (Call Block Slice)),
      (ListTransactions env ctx addr limit lt txHash).1 = .doRequest (.getList req) :: t ∧
      req.Limit = (if limit < 2 ^ 31 then (limit : Int) else (limit : Int) - 2 ^ 32) ∧
      (2 ^ 31 ≤ limit → req.Limit < 0) ∧
      req.LT = (if lt < 2 ^ 63 then (lt : Int) else (lt : Int) - 2 ^ 64) ∧
      req.AccID.WorkChain = addr.Workchain ∧
      req.AccID.ID = addr.Data ∧
      req.TxHash = txHash := by
  obtain ⟨t, ht⟩ := ListTransactions_trace_head env ctx addr limit lt txHash
  have h32 : toInt32 limit = (if limit < 2 ^ 31 then (limit : Int) else (limit : Int) - 2 ^ 32) := by
    unfold toInt32
    rw [Nat.mod_eq_of_lt hlimit]
  have h64 : toInt64 lt = (if lt < 2 ^ 63 then (lt : Int) else (lt : Int) - 2 ^ 64) := by
    unfold toInt64
    rw [Nat.mod_eq_of_lt hlt]
  refine ⟨_, t, ht, h32, ?_, h64, rfl, rfl, rfl⟩
  intro hge
  show toInt32 limit < 0
  rw [h32, if_neg (by omega)]
  have : (limit : Int) < 2 ^ 32 := by exact_mod_cast hlimit
  omega

/-- C14 at the largest `uint32` limit and the logical time `2^63`: the request is sent with
`Limit = -1`. -/
theorem C14_request_fields_witness :
    ∃ (req : GetTransactions) (t : List (Call Unit Nat)),
      (ListTransactions (demoEnv (.ok demoListResp)) () demoAddr 4294967295
          9223372036854775808 [4]).1 = .doRequest (.getList req) :: t ∧
      req.Limit = (if 4294967295 < 2 ^ 31 then ((4294967295 : Nat) : Int)
        else ((4294967295 : Nat) : Int) - 2 ^ 32) ∧
      (2 ^ 31 ≤ 4294967295 → req.Limit < 0) ∧
      req.LT = (if 9223372036854775808 < 2 ^ 63 then ((9223372036854775808 : Nat) : Int)
        else ((9223372036854775808 : Nat) : Int) - 2 ^ 64) ∧
      req.AccID.WorkChain = demoAddr.Workchain ∧
      req.AccID.ID = demoAddr.Data ∧
      req.TxHash = [4] :=
  C14_request_fields (demoEnv (.ok demoListResp)) () demoAddr 4294967295 9223372036854775808
    [4] (by norm_num) (by norm_num)

/-- C15. `ListTransactions` is all-or-nothing over the decoded roots: when the loader
accepts the roots before index `i` and rejects the root at index `i` with error `e`, the
call returns no sequence (not the records already materialised) and an error wrapping `e`;
a sequence is returned only when every root loaded, and then it holds one record per
root. -/
theorem C15_all_or_nothing (env : Env Ctx Block Cell Slice Rest) (ctx : Ctx) (addr : Address)
    (limit lt : Nat) (txHash : Bytes) (resp : Response) (k : Nat)
    (data2 txData rest : Bytes) (roots : List Cell)
    (hreq : env.DoRequest ctx (listRequest addr limit lt txHash) = .ok resp)
    (htag : resp.TypeID = env.TransactionsList)
    (hlen : 4 < resp.Data.length)
    (hk : Uint32 resp.Data = some k)
    (hhdr : Headers env k (resp.Data.drop 4) data2)
    (hblob : env.FromBytes data2 = .ok (txData, rest))
    (hboc : env.FromBOCMultiRoot txData = .ok roots) :
    (∀ (accepted later : List Cell) (r : Cell) (loaded : List (Transaction Rest)) (e : Err),
      roots = accepted ++ r :: later →
      List.Forall₂ (fun c tx => env.LoadFromCell (env.BeginParse c) = .ok tx) accepted loaded →
      env.LoadFromCell (env.BeginParse r) = .error e →
      (ListTransactions env ctx addr limit lt txHash).2
        = .error (.wrap "failed to load transaction from cell" e)) ∧
    (∀ res, (ListTransactions env ctx addr limit lt txHash).2 = .ok res →
      List.Forall₂ (LoadedFrom env) roots res) := by
  have hrun := ListTransactions_snd_of_roots env ctx addr limit lt txHash resp k data2 txData
    rest roots hreq htag hlen hk hhdr hblob hboc
  constructor
  · intro accepted later r loaded e hsplit hacc hfail
    rw [hrun, hsplit]
    exact loadTransactions_first_failure env hacc hfail later []
  · intro res hres
    rw [hrun] at hres
    obtain ⟨fresh, hout, hall⟩ := loadTransactions_ok_inv env roots [] res hres
    simp only [List.nil_append] at hout
    rw [hout]
    exact hall

/-- C15 at concrete responses: with the roots 5, 0, 3 the loader rejects root 0 after root 5
was materialised and the call returns only the wrapped error; with the roots 5, 3 the
returned records are loaded from these roots. -/
theorem C15_all_or_nothing_witness :
    (ListTransactions (demoEnv (.ok demoRejectedResp)) () demoAddr 10 0 []).2
      = .error (.wrap "failed to load transaction from cell" (.text "bad cell")) ∧
    List.Forall₂ (LoadedFrom (demoEnv (.ok demoListResp))) [5, 3]
      [{ LT := 5, Rest := (), Hash := some [5, 0] }, { LT := 3, Rest := (), Hash := some [3, 0] }] :=
  ⟨(C15_all_or_nothing (demoEnv (.ok demoRejectedResp)) () demoAddr 10 0 [] demoRejectedResp 1
      [3, 5, 0, 3] [5, 0, 3] [] [5, 0, 3] rfl rfl (by decide) rfl
      (Headers.step rfl (Headers.done _)) rfl rfl).1 [5] [3] 0
      [{ LT := 5, Rest := (), Hash := some [9] }] (.text "bad cell") rfl
      (List.Forall₂.cons rfl List.Forall₂.nil) rfl,
    (C15_all_or_nothing (demoEnv (.ok demoListResp)) () demoAddr 10 0 [] demoListResp 1
      [2, 5, 3] [5, 3] [] [5, 3] rfl rfl (by decide) rfl
      (Headers.step rfl (Headers.done _)) rfl rfl).2 _ rfl⟩

end Properties

end Ton
